import Mathlib

/-!
Verification of `tensorflow_federated/python/tensorflow_libs/tensor_utils.py`.

The module is a flat collection of helper functions over nested structures of
tensors.  We shallowly embed the data the functions manipulate:

* a tensor element is either a finite numeric value or a non-finite value
  (NaN, positive or negative infinity);
* a tensor is a shape together with a flat list of elements;
* a nested structure (the values handled by tf.contrib.framework.nest) is a
  finitely branching tree whose leaves carry the payload; flattening visits
  leaves left to right, which is the canonical deterministic order.

Fallible functions are embedded with Except; the error constructors mirror
the distinct error conditions of the Python code (TypeError, the naming and
duplicate-name ValueErrors, and so on).
-/

/-- A tensor element: a finite numeric value, or one of the non-finite IEEE
values NaN, plus infinity, minus infinity.  tf.is_finite is true exactly on
the first constructor. -/
inductive Elem where
  | val (x : Int)
  | nan
  | inf
  | negInf
deriving DecidableEq, Repr

/-- Elementwise finiteness test, mirroring tf.is_finite on one element. -/
def Elem.isFinite : Elem → Bool
  | .val _ => true
  | .nan => false
  | .inf => false
  | .negInf => false

/-- A tensor: a shape and the flat list of its elements. -/
structure Tensor where
  shape : List Nat
  data : List Elem
deriving DecidableEq, Repr

/-- tf.zeros_like: a tensor of the same shape with every element zero. -/
def Tensor.zerosLike (t : Tensor) : Tensor :=
  { shape := t.shape, data := t.data.map (fun _ => Elem.val 0) }

/-- tf.is_finite applied elementwise to a whole tensor. -/
def Tensor.is_finite (t : Tensor) : List Bool :=
  t.data.map Elem.isFinite

/-- tf.reduce_all over a boolean tensor: conjunction of all entries,
vacuously true when empty. -/
def reduce_all (bs : List Bool) : Bool :=
  bs.all id

/-- A nested structure as handled by tf.contrib.framework.nest: a leaf
holding a payload, or an ordered container of child structures. -/
inductive Struct (α : Type) where
  | leaf : α → Struct α
  | node : List (Struct α) → Struct α

mutual

/-- nest.flatten: the leaves of a structure in canonical left-to-right
order. -/
def Struct.flatten {α : Type} : Struct α → List α
  | .leaf a => [a]
  | .node cs => Struct.flattenList cs

/-- Flattening of a list of child structures, in order. -/
def Struct.flattenList {α : Type} : List (Struct α) → List α
  | [] => []
  | c :: cs => Struct.flatten c ++ Struct.flattenList cs

end

mutual

/-- nest.map_structure with a unary function: applies the function to every
leaf, preserving the nesting. -/
def Struct.map {α β : Type} (f : α → β) : Struct α → Struct β
  | .leaf a => .leaf (f a)
  | .node cs => .node (Struct.mapList f cs)

/-- Mapping over a list of child structures. -/
def Struct.mapList {α β : Type} (f : α → β) : List (Struct α) → List (Struct β)
  | [] => []
  | c :: cs => Struct.map f c :: Struct.mapList f cs

end

mutual

/-- nest.assert_same_structure as a boolean test: the two trees have the
same container arrangement and the same lengths at every level (leaf
payloads are not compared). -/
def Struct.sameStructure {α β : Type} : Struct α → Struct β → Bool
  | .leaf _, .leaf _ => true
  | .node xs, .node ys => Struct.sameStructureList xs ys
  | .leaf _, .node _ => false
  | .node _, .leaf _ => false

/-- Same-structure test on the child lists: equal lengths and pairwise
same structure. -/
def Struct.sameStructureList {α β : Type} : List (Struct α) → List (Struct β) → Bool
  | [], [] => true
  | x :: xs, y :: ys => Struct.sameStructure x y && Struct.sameStructureList xs ys
  | [], _ :: _ => false
  | _ :: _, [] => false

end

/-- functools.reduce with tf.logical_and and no initial value: left fold of
conjunction over a non-empty list, starting from its head.  (The Python call
site only ever receives a non-empty list; the empty case is unreachable
there.) -/
def reduce_logical_and : List Bool → Bool
  | [] => true
  | b :: bs => bs.foldl (fun x y => x && y) b

/-- zero_all_if_any_non_finite: flattens the structure; an empty structure is
returned unchanged with flag 0; otherwise the per-leaf all-finite booleans
are reduced with logical AND, and tf.cond selects either the original
structure with flag 0 or the structure mapped through tf.zeros_like with
flag 1.  tf.cond builds both branches and selects by the runtime value of
the predicate, which a value-level embedding renders as selection on the
boolean. -/
def zero_all_if_any_non_finite (structure_ : Struct Tensor) : Struct Tensor × Int :=
  let flat := Struct.flatten structure_
  if flat.isEmpty then
    (structure_, 0)
  else
    let flat_bools := flat.map (fun t => reduce_all (Tensor.is_finite t))
    let all_finite := reduce_logical_and flat_bools
    if all_finite then
      (structure_, 0)
    else
      (Struct.map Tensor.zerosLike structure_, 1)

/-- Error raised by check_nested_equal: the structures disagree in nesting
(nest.assert_same_structure fails), or a corresponding pair of leaves fails
the equality predicate (the ValueError carries that pair). -/
inductive CheckError (α : Type) where
  | structureMismatch
  | valueMismatch (x y : α)
deriving DecidableEq

/-- The comparison loop of check_nested_equal: walks the zipped flattened
leaves and raises on the first pair the predicate rejects. -/
def check_flat_equal {α : Type} (eq_fn : α → α → Bool) :
    List (α × α) → Except (CheckError α) Unit
  | [] => .ok ()
  | (x, y) :: rest =>
    if eq_fn x y then check_flat_equal eq_fn rest
    else .error (.valueMismatch x y)

/-- check_nested_equal: asserts the two structures have the same nesting,
then flattens both and compares corresponding leaves with the predicate,
raising at the first rejected pair. -/
def check_nested_equal {α : Type} (eq_fn : α → α → Bool)
    (nested_x nested_y : Struct α) : Except (CheckError α) Unit :=
  if Struct.sameStructure nested_x nested_y then
    check_flat_equal eq_fn ((Struct.flatten nested_x).zip (Struct.flatten nested_y))
  else
    .error .structureMismatch

/-- A tf.Variable: a name and a payload standing for its value. -/
structure Variable where
  name : String
  val : Int
deriving DecidableEq, Repr

/-- Modelled from the spec: the inputs of to_var_dict are arbitrary Python
values, and py_typecheck.check_type (repository code outside src, from
common_libs) raises a TypeError when a value is not an instance of the
required class.  We model an input element as either a tf.Variable or some
other value. -/
inductive PyVal where
  | variable (v : Variable)
  | notVariable (tag : Nat)
deriving DecidableEq, Repr

/-- Errors raised by to_var_dict: the TypeError of py_typecheck.check_type,
the ValueError for a name without the trailing device-slot suffix (carrying
the full name), and the ValueError for a repeated stripped name (carrying
the stripped name). -/
inductive VarDictError where
  | typeError
  | namingError (name : String)
  | duplicateNameError (name : String)
deriving DecidableEq, Repr

/-- The Python test name[-2:] == ":0": the slice of the last (at most) two
characters equals the device-slot suffix.  On the character list this is
dropping all but the last two characters and comparing with the colon-zero
pair; for strings shorter than two characters the slice is the whole string
and the test is false. -/
def has_slot_suffix (name : String) : Bool :=
  name.data.drop (name.data.length - 2) == [':', '0']

/-- The Python slice name[:-2], removing the two-character suffix. -/
def strip_slot_suffix (name : String) : String :=
  name.dropRight 2

/-- The loop of to_var_dict: checks each element is a variable, checks its
name ends with the suffix ":0", strips the suffix, rejects stripped names
already seen, and accumulates the (stripped name, variable) pairs in input
order. -/
def to_var_dict_loop : List PyVal → List (String × Variable) → List String →
    Except VarDictError (List (String × Variable))
  | [], tuples, _ => .ok tuples
  | pv :: rest, tuples, seen_names =>
    match pv with
    | .notVariable _ => .error .typeError
    | .variable v =>
      if has_slot_suffix v.name then
        let name := strip_slot_suffix v.name
        if name ∈ seen_names then .error (.duplicateNameError name)
        else to_var_dict_loop rest (tuples ++ [(name, v)]) (name :: seen_names)
      else .error (.namingError v.name)

/-- to_var_dict: an OrderedDict keyed by variable name with the ":0"
removed, in input order; the result list of pairs is the entry list of the
OrderedDict. -/
def to_var_dict (vs : List PyVal) : Except VarDictError (List (String × Variable)) :=
  to_var_dict_loop vs [] []

/-- Modelled from the spec: a Python dict key is a string or some other
value; py_typecheck.check_type (repository code outside src) raises a
TypeError on a non-string key. -/
inductive PyKey where
  | str (s : String)
  | other (n : Nat)
deriving DecidableEq, Repr

/-- Whether a key is a string, as tested by check_type against string
types. -/
def PyKey.isStr : PyKey → Bool
  | .str _ => true
  | .other _ => false

/-- The string carried by a string key (dummy on other keys; only used once
every key is known to be a string). -/
def PyKey.keyStr : PyKey → String
  | .str s => s
  | .other _ => ""

/-- Modelled from the spec: the input of to_odict is an arbitrary Python
value; it may be an OrderedDict (an insertion-ordered mapping, entry list in
insertion order), a plain dict (entry list in iteration order, keys
pairwise distinct), or a value that is not a mapping at all, in which case
py_typecheck.check_type raises a TypeError. -/
inductive OdictInput (β : Type) where
  | odict (entries : List (PyKey × β))
  | dict (entries : List (PyKey × β))
  | notMapping (tag : Nat)

/-- Whether the input is a mapping (OrderedDict is a dict subclass). -/
def OdictInput.isMapping {β : Type} : OdictInput β → Bool
  | .odict _ => true
  | .dict _ => true
  | .notMapping _ => false

/-- Whether some key of the input mapping is not a string. -/
def OdictInput.hasNonStringKey {β : Type} : OdictInput β → Bool
  | .odict es => es.any (fun e => !e.1.isStr)
  | .dict es => es.any (fun e => !e.1.isStr)
  | .notMapping _ => false

/-- The comparison used by Python sorted on the (key, value) item list:
tuples compare lexicographically, so with pairwise distinct string keys the
order is decided by the key strings alone. -/
def entryLE {β : Type} (a b : PyKey × β) : Prop :=
  a.1.keyStr ≤ b.1.keyStr

instance {β : Type} : DecidableRel (@entryLE β) :=
  fun a b => inferInstanceAs (Decidable (a.1.keyStr ≤ b.1.keyStr))

instance {β : Type} : IsTotal (PyKey × β) entryLE :=
  ⟨fun a b => le_total a.1.keyStr b.1.keyStr⟩

instance {β : Type} : IsTrans (PyKey × β) entryLE :=
  ⟨fun _ _ _ hab hbc => le_trans hab hbc⟩

/-- Python sorted on the (key, value) item list: a stable sort by the
lexicographic tuple order, which with pairwise distinct string keys orders
the entries by key string. -/
def sorted_items {β : Type} (items : List (PyKey × β)) : List (PyKey × β) :=
  items.insertionSort entryLE

/-- to_odict: an OrderedDict is returned unchanged (before any key check);
a non-mapping raises TypeError; a plain dict has every key checked to be a
string (TypeError otherwise) and its items returned sorted
lexicographically by key. -/
def to_odict {β : Type} (d : OdictInput β) : Except Unit (List (PyKey × β)) :=
  match d with
  | .odict es => .ok es
  | .notMapping _ => .error ()
  | .dict es =>
    if es.all (fun e => e.1.isStr) then .ok (sorted_items es)
    else .error ()

/-- The shape metadata a tensor carries: one entry per dimension, where an
entry is the known size or unknown (tf.Dimension with value None).  The
Python comparison dim == 1 on a tf.Dimension is true exactly when the value
is known and equals 1; an unknown dimension compares falsy. -/
structure TensorV where
  get_shape : List (Option Int)
deriving DecidableEq, Repr

/-- Modelled from the spec: the input of is_scalar is an arbitrary Python
value tested with tf.contrib.framework.is_tensor; a non-tensor raises
TypeError. -/
inductive TfValue where
  | tensor (t : TensorV)
  | notTensor (tag : Nat)
deriving DecidableEq, Repr

/-- is_scalar: TypeError on a non-tensor; otherwise true iff every
dimension of the shape compares equal to 1.  (The hasattr guard on
get_shape is always true for a tensor and contributes nothing.) -/
def is_scalar (tensor : TfValue) : Except Unit Bool :=
  match tensor with
  | .notTensor _ => .error ()
  | .tensor t => .ok (t.get_shape.all (fun dim => dim == some 1))

/-- same_dimension on tf.Dimension values: a dimension is unknown (None) or
a known integer size.  Unknown equals only unknown; known dimensions are
equal when their values are. -/
def same_dimension (x y : Option Int) : Bool :=
  match x with
  | none => y.isNone
  | some xv =>
    match y with
    | none => false
    | some yv => xv == yv

/-- A tf.TensorShape: either of unknown rank (dims is None) or a list of
per-dimension sizes, each possibly unknown. -/
structure TensorShape where
  dims : Option (List (Option Int))
deriving DecidableEq, Repr

/-- TensorShape.ndims: the rank, or None when the rank is unknown. -/
def TensorShape.ndims (x : TensorShape) : Option Nat :=
  x.dims.map List.length

/-- same_shape: false when the ranks differ; for unknown-rank shapes, true
iff the other is also of unknown rank; otherwise all corresponding
dimension pairs must satisfy same_dimension. -/
def same_shape (x y : TensorShape) : Bool :=
  if x.ndims ≠ y.ndims then
    false
  else
    match x.dims with
    | none => y.dims.isNone
    | some xd =>
      match y.dims with
      | none => false
      | some yd => (xd.zip yd).all (fun p => same_dimension p.1 p.2)

mutual

/-- Flattening after mapping equals mapping after flattening. -/
theorem Struct.flatten_map {α β : Type} (f : α → β) :
    ∀ s : Struct α, Struct.flatten (Struct.map f s) = (Struct.flatten s).map f
  | .leaf _ => rfl
  | .node cs => by
    rw [Struct.map, Struct.flatten, Struct.flatten, Struct.flattenList_map f cs]

/-- List version of flatten_map. -/
theorem Struct.flattenList_map {α β : Type} (f : α → β) :
    ∀ cs : List (Struct α),
      Struct.flattenList (Struct.mapList f cs) = (Struct.flattenList cs).map f
  | [] => rfl
  | c :: cs => by
    rw [Struct.mapList, Struct.flattenList, Struct.flattenList,
      Struct.flatten_map f c, Struct.flattenList_map f cs, List.map_append]

end

mutual

/-- Mapping a structure preserves its nesting shape. -/
theorem Struct.sameStructure_map {α β : Type} (f : α → β) :
    ∀ s : Struct α, Struct.sameStructure (Struct.map f s) s = true
  | .leaf _ => rfl
  | .node cs => by
    rw [Struct.map, Struct.sameStructure, Struct.sameStructureList_map f cs]

/-- List version of sameStructure_map. -/
theorem Struct.sameStructureList_map {α β : Type} (f : α → β) :
    ∀ cs : List (Struct α),
      Struct.sameStructureList (Struct.mapList f cs) cs = true
  | [] => rfl
  | c :: cs => by
    rw [Struct.mapList, Struct.sameStructureList, Struct.sameStructure_map f c,
      Struct.sameStructureList_map f cs, Bool.and_self]

end

/-- Left fold of conjunction starting from a seed. -/
theorem foldl_and_eq (bs : List Bool) : ∀ b : Bool,
    bs.foldl (fun x y => x && y) b = (b && bs.all id) := by
  induction bs with
  | nil => intro b; simp
  | cons c cs ih =>
    intro b
    rw [List.foldl_cons, ih, List.all_cons]
    simp [Bool.and_assoc]

/-- The seedless reduce of logical AND agrees with the all-quantifier. -/
theorem reduce_logical_and_eq_all : ∀ bs : List Bool,
    reduce_logical_and bs = bs.all id
  | [] => rfl
  | b :: bs => by
    rw [reduce_logical_and, foldl_and_eq, List.all_cons]
    rfl

/-- The all-quantifier over a mapped list tests the composite predicate. -/
theorem all_map_comp {α β : Type} (f : α → β) (p : β → Bool) :
    ∀ l : List α, (l.map f).all p = l.all (fun a => p (f a))
  | [] => rfl
  | a :: l => by
    rw [List.map_cons, List.all_cons, List.all_cons, all_map_comp f p l]

/-- Closed form of zero_all_if_any_non_finite: the non-finite test reduces
to an all-quantifier over the flattened leaves. -/
theorem zero_all_if_any_non_finite_eq (s : Struct Tensor) :
    zero_all_if_any_non_finite s =
      if (Struct.flatten s).isEmpty then (s, 0)
      else if (Struct.flatten s).all (fun t => t.data.all Elem.isFinite) then (s, 0)
      else (Struct.map Tensor.zerosLike s, 1) := by
  have h : ∀ l : List Tensor,
      reduce_logical_and (List.map (fun t => reduce_all (Tensor.is_finite t)) l)
        = l.all fun t => t.data.all Elem.isFinite := by
    intro l
    simp [reduce_logical_and_eq_all, all_map_comp, reduce_all, Tensor.is_finite]
  simp only [zero_all_if_any_non_finite, h]

/-- Every pair of the zip of a mapped list with the original list relates a
mapped element to its original. -/
theorem mem_zip_map_self {α β : Type} (f : α → β) :
    ∀ (l : List α) (p : β × α), p ∈ (l.map f).zip l → p.1 = f p.2
  | [], _, h => by cases h
  | a :: l, p, h => by
    rw [List.map_cons, List.zip_cons_cons] at h
    cases h with
    | head => rfl
    | tail _ htail => exact mem_zip_map_self f l p htail

/-- C1: on an empty structure zero_all_if_any_non_finite returns the
structure unchanged with flag 0; when every element of every leaf is finite
it returns the original structure with flag 0; and when some leaf contains a
non-finite element it returns a structure of identical nesting whose leaves
are all-zero tensors of the corresponding shapes, with flag 1. -/
theorem zero_all_if_any_non_finite_spec (s : Struct Tensor) :
    (Struct.flatten s = [] → zero_all_if_any_non_finite s = (s, 0)) ∧
    ((∀ t ∈ Struct.flatten s, ∀ e ∈ t.data, Elem.isFinite e = true) →
      zero_all_if_any_non_finite s = (s, 0)) ∧
    ((∃ t ∈ Struct.flatten s, ∃ e ∈ t.data, Elem.isFinite e = false) →
      (zero_all_if_any_non_finite s).2 = 1 ∧
      Struct.sameStructure (zero_all_if_any_non_finite s).1 s = true ∧
      Struct.flatten (zero_all_if_any_non_finite s).1
        = (Struct.flatten s).map Tensor.zerosLike ∧
      ∀ p ∈ (Struct.flatten (zero_all_if_any_non_finite s).1).zip (Struct.flatten s),
        p.1.shape = p.2.shape ∧ ∀ e ∈ p.1.data, e = Elem.val 0) := by
  refine ⟨?_, ?_, ?_⟩
  · intro h
    rw [zero_all_if_any_non_finite_eq, h]
    simp
  · intro h
    have hall : (Struct.flatten s).all (fun t => t.data.all Elem.isFinite) = true := by
      rw [List.all_eq_true]
      intro t ht
      rw [List.all_eq_true]
      intro e he
      exact h t ht e he
    rw [zero_all_if_any_non_finite_eq, hall]
    simp
  · rintro ⟨t, ht, e, he, hef⟩
    have hne : (Struct.flatten s).isEmpty = false := by
      cases hf : Struct.flatten s with
      | nil => rw [hf] at ht; cases ht
      | cons a l => rfl
    have hall : (Struct.flatten s).all (fun t => t.data.all Elem.isFinite) = false := by
      cases hb : (Struct.flatten s).all (fun t => t.data.all Elem.isFinite) with
      | false => rfl
      | true =>
        exfalso
        rw [List.all_eq_true] at hb
        have hb2 := hb t ht
        rw [List.all_eq_true] at hb2
        have hb3 := hb2 e he
        rw [hef] at hb3
        exact Bool.false_ne_true hb3
    have hres : zero_all_if_any_non_finite s = (Struct.map Tensor.zerosLike s, 1) := by
      rw [zero_all_if_any_non_finite_eq, hne, hall]
      simp
    rw [hres]
    refine ⟨rfl, Struct.sameStructure_map _ s, Struct.flatten_map _ s, ?_⟩
    intro p hp
    rw [Struct.flatten_map] at hp
    have h1 : p.1 = Tensor.zerosLike p.2 := mem_zip_map_self _ _ p hp
    constructor
    · rw [h1]
      rfl
    · intro e2 he2
      rw [h1, Tensor.zerosLike] at he2
      obtain ⟨a, _, hae⟩ := List.mem_map.mp he2
      exact hae.symm

/-- A one-leaf sample structure whose single tensor holds a NaN. -/
def nanSample : Struct Tensor :=
  Struct.node [Struct.leaf { shape := [1], data := [Elem.nan] }]

/-- Witness for C1 at a one-leaf structure containing a NaN: the flag is 1
and the result has the same nesting as the input. -/
theorem zero_all_if_any_non_finite_spec_witness :
    (zero_all_if_any_non_finite nanSample).2 = 1 ∧
    Struct.sameStructure (zero_all_if_any_non_finite nanSample).1 nanSample = true := by
  have h := (zero_all_if_any_non_finite_spec nanSample).2.2
      ⟨({ shape := [1], data := [Elem.nan] } : Tensor),
        by simp [nanSample, Struct.flatten, Struct.flattenList],
        Elem.nan, by simp, rfl⟩
  exact ⟨h.1, h.2.1⟩

/-- The comparison loop accepts a list all of whose pairs satisfy the
predicate. -/
theorem check_flat_equal_ok {α : Type} (eq_fn : α → α → Bool) :
    ∀ l : List (α × α), (∀ p ∈ l, eq_fn p.1 p.2 = true) →
      check_flat_equal eq_fn l = .ok ()
  | [], _ => rfl
  | (x, y) :: rest, h => by
    have hx := h (x, y) (List.mem_cons_self _ _)
    simp only [check_flat_equal, hx, if_true]
    exact check_flat_equal_ok eq_fn rest (fun p hp => h p (List.mem_cons_of_mem _ hp))

/-- The comparison loop rejects at the first pair the predicate refuses,
reporting exactly that pair. -/
theorem check_flat_equal_err {α : Type} (eq_fn : α → α → Bool) :
    ∀ (l : List (α × α)) (a b : α),
      l.find? (fun p => !eq_fn p.1 p.2) = some (a, b) →
      check_flat_equal eq_fn l = .error (.valueMismatch a b)
  | [], a, b, h => by simp at h
  | (x, y) :: rest, a, b, h => by
    by_cases hxy : eq_fn x y = true
    · rw [List.find?_cons_of_neg] at h
      · simp only [check_flat_equal, hxy, if_true]
        exact check_flat_equal_err eq_fn rest a b h
      · simp [hxy]
    · have hx : eq_fn x y = false := by
        cases hc : eq_fn x y with
        | false => rfl
        | true => exact absurd hc hxy
      rw [List.find?_cons_of_pos] at h
      · have hinj : x = a ∧ y = b := by
          rw [Option.some.injEq, Prod.mk.injEq] at h
          exact h
        rw [hinj.1, hinj.2] at hx ⊢
        simp only [check_flat_equal, hx]
        simp
      · simp [hx]

/-- C2: check_nested_equal reports a structure mismatch whenever the two
structures differ in nesting, for every predicate and without consulting
leaf values; on matching structures it reports a value mismatch carrying
the first rejected pair of corresponding leaves in canonical flattening
order; and it succeeds when every corresponding pair is accepted. -/
theorem check_nested_equal_spec {α : Type} (x y : Struct α) :
    (Struct.sameStructure x y = false →
      ∀ eq_fn : α → α → Bool,
        check_nested_equal eq_fn x y = .error .structureMismatch) ∧
    (Struct.sameStructure x y = true →
      ∀ eq_fn : α → α → Bool,
        ((∀ p ∈ (Struct.flatten x).zip (Struct.flatten y), eq_fn p.1 p.2 = true) →
          check_nested_equal eq_fn x y = .ok ()) ∧
        (∀ a b : α,
          ((Struct.flatten x).zip (Struct.flatten y)).find?
              (fun p => !eq_fn p.1 p.2) = some (a, b) →
          check_nested_equal eq_fn x y = .error (.valueMismatch a b))) := by
  constructor
  · intro h eq_fn
    simp [check_nested_equal, h]
  · intro h eq_fn
    constructor
    · intro hall
      simp only [check_nested_equal, h, if_true]
      exact check_flat_equal_ok eq_fn _ hall
    · intro a b hfind
      simp only [check_nested_equal, h, if_true]
      exact check_flat_equal_err eq_fn _ a b hfind

/-- Witness for C2: two same-shaped two-leaf structures disagreeing at the
second leaf produce the value-mismatch error carrying that pair. -/
theorem check_nested_equal_spec_witness :
    check_nested_equal (fun a b : Int => a == b)
        (Struct.node [Struct.leaf 1, Struct.leaf 2])
        (Struct.node [Struct.leaf 1, Struct.leaf 3])
      = .error (.valueMismatch 2 3) := by
  have hs : Struct.sameStructure
      (Struct.node [Struct.leaf (1 : Int), Struct.leaf 2])
      (Struct.node [Struct.leaf (1 : Int), Struct.leaf 3]) = true := by
    simp [Struct.sameStructure, Struct.sameStructureList]
  have hfind : ((Struct.flatten (Struct.node [Struct.leaf (1 : Int), Struct.leaf 2])).zip
      (Struct.flatten (Struct.node [Struct.leaf (1 : Int), Struct.leaf 3]))).find?
      (fun p => !(fun a b : Int => a == b) p.1 p.2) = some (2, 3) := by
    simp [Struct.flatten, Struct.flattenList]
  exact ((check_nested_equal_spec
      (Struct.node [Struct.leaf (1 : Int), Struct.leaf 2])
      (Struct.node [Struct.leaf (1 : Int), Struct.leaf 3])).2 hs
      (fun a b => a == b)).2 2 3 hfind

/-- Processing a clean prefix of valid variables with pairwise distinct
stripped names only extends the accumulated tuples and seen names. -/
theorem to_var_dict_loop_append (pre : List Variable) :
    ∀ (rest : List PyVal) (tuples : List (String × Variable))
      (seen : List String),
      (∀ v ∈ pre, has_slot_suffix v.name = true) →
      (pre.map fun v => strip_slot_suffix v.name).Nodup →
      (∀ v ∈ pre, strip_slot_suffix v.name ∉ seen) →
      to_var_dict_loop (pre.map PyVal.variable ++ rest) tuples seen
        = to_var_dict_loop rest
            (tuples ++ pre.map fun v => (strip_slot_suffix v.name, v))
            ((pre.map fun v => strip_slot_suffix v.name).reverse ++ seen) := by
  induction pre with
  | nil =>
    intro rest tuples seen _ _ _
    simp
  | cons v pre ih =>
    intro rest tuples seen hn hd hs
    have hv := hn v (List.mem_cons_self _ _)
    have hvs : strip_slot_suffix v.name ∉ seen := hs v (List.mem_cons_self _ _)
    have hd0 : (strip_slot_suffix v.name ∉ pre.map fun u => strip_slot_suffix u.name) ∧
        (pre.map fun u => strip_slot_suffix u.name).Nodup := by
      rw [List.map_cons] at hd
      exact List.nodup_cons.mp hd
    have hn' : ∀ w ∈ pre, has_slot_suffix w.name = true :=
      fun w hw => hn w (List.mem_cons_of_mem _ hw)
    have hs' : ∀ w ∈ pre,
        strip_slot_suffix w.name ∉ (strip_slot_suffix v.name :: seen) := by
      intro w hw hmem
      rcases List.mem_cons.mp hmem with heq | h2
      · exact hd0.1 (List.mem_map.mpr ⟨w, hw, heq⟩)
      · exact hs w (List.mem_cons_of_mem _ hw) h2
    rw [List.map_cons, List.cons_append]
    simp only [to_var_dict_loop, hv, if_true]
    rw [if_neg hvs]
    rw [ih rest (tuples ++ [(strip_slot_suffix v.name, v)])
      (strip_slot_suffix v.name :: seen) hn' hd0.2 hs']
    simp

/-- C4: on variables whose names all carry the ":0" suffix and whose
stripped names are pairwise distinct, to_var_dict returns the ordered entry
list keyed by stripped name, in the original input order. -/
theorem to_var_dict_preserves_order (l : List Variable)
    (hn : ∀ v ∈ l, has_slot_suffix v.name = true)
    (hd : (l.map fun v => strip_slot_suffix v.name).Nodup) :
    to_var_dict (l.map PyVal.variable)
      = .ok (l.map fun v => (strip_slot_suffix v.name, v)) := by
  have h := to_var_dict_loop_append l [] [] [] hn hd (by simp)
  unfold to_var_dict
  rw [show l.map PyVal.variable = l.map PyVal.variable ++ [] from
    (List.append_nil _).symm, h]
  simp [to_var_dict_loop]

/-- Witness for C4 on two variables: the suffix is stripped and the entry
order follows the input order. -/
theorem to_var_dict_preserves_order_witness :
    to_var_dict [PyVal.variable ⟨"a:0", 1⟩, PyVal.variable ⟨"b:0", 2⟩]
      = .ok [("a", ⟨"a:0", 1⟩), ("b", ⟨"b:0", 2⟩)] := by
  have h := to_var_dict_preserves_order [⟨"a:0", 1⟩, ⟨"b:0", 2⟩]
    (by decide) (by decide)
  exact h

/-- C3: with a clean prefix of valid variables with pairwise distinct
stripped names, the result of to_var_dict is decided by the first offending
element: a non-variable raises the TypeError, a variable without the ":0"
suffix raises the naming ValueError with its full name, and a variable
whose stripped name repeats an earlier one raises the duplicate-name
ValueError with the stripped name. -/
theorem to_var_dict_first_offender (pre : List Variable) (x : PyVal) (post : List PyVal)
    (hn : ∀ v ∈ pre, has_slot_suffix v.name = true)
    (hd : (pre.map fun v => strip_slot_suffix v.name).Nodup) :
    (∀ n, x = PyVal.notVariable n →
      to_var_dict (pre.map PyVal.variable ++ x :: post) = .error .typeError) ∧
    (∀ v, x = PyVal.variable v → has_slot_suffix v.name = false →
      to_var_dict (pre.map PyVal.variable ++ x :: post)
        = .error (.namingError v.name)) ∧
    (∀ v, x = PyVal.variable v → has_slot_suffix v.name = true →
      strip_slot_suffix v.name ∈ (pre.map fun w => strip_slot_suffix w.name) →
      to_var_dict (pre.map PyVal.variable ++ x :: post)
        = .error (.duplicateNameError (strip_slot_suffix v.name))) := by
  have h := to_var_dict_loop_append pre (x :: post) [] [] hn hd (by simp)
  refine ⟨?_, ?_, ?_⟩
  · rintro n rfl
    unfold to_var_dict
    rw [h]
    simp [to_var_dict_loop]
  · rintro v rfl hnm
    unfold to_var_dict
    rw [h]
    simp [to_var_dict_loop, hnm]
  · rintro v rfl hsuf hmem
    unfold to_var_dict
    rw [h]
    have hmem2 : strip_slot_suffix v.name ∈
        ((pre.map fun w => strip_slot_suffix w.name).reverse ++ ([] : List String)) := by
      simp [hmem]
    simp only [to_var_dict_loop, hsuf, if_true]
    rw [if_pos hmem2]

/-- Witness for C3: a second variable with the same stripped name as the
first raises the duplicate-name error carrying the stripped name. -/
theorem to_var_dict_first_offender_witness :
    to_var_dict [PyVal.variable ⟨"a:0", 1⟩, PyVal.variable ⟨"a:0", 2⟩]
      = .error (.duplicateNameError "a") := by
  have h := (to_var_dict_first_offender [⟨"a:0", 1⟩] (PyVal.variable ⟨"a:0", 2⟩) []
      (by decide) (by decide)).2.2 ⟨"a:0", 2⟩ rfl (by decide) (by decide)
  exact h

/-- Counterexample for C5: an already insertion-ordered mapping with a
non-string key is a mapping with a non-string key, yet to_odict returns it
unchanged instead of raising a TypeError, because the OrderedDict branch
returns before any key check. -/
theorem to_odict_nonstring_ordered_counterexample :
    OdictInput.isMapping (OdictInput.odict [(PyKey.other 0, (0 : Int))]) = true ∧
    OdictInput.hasNonStringKey (OdictInput.odict [(PyKey.other 0, (0 : Int))]) = true ∧
    to_odict (OdictInput.odict [(PyKey.other 0, (0 : Int))])
      = Except.ok [(PyKey.other 0, 0)] :=
  ⟨rfl, rfl, rfl⟩

/-- C5 amended: to_odict raises a TypeError when the input is not a
mapping, and when the input is a plain (not insertion-ordered) mapping with
a non-string key; an already insertion-ordered mapping is returned without
any key check. -/
theorem to_odict_type_error (β : Type) (d : OdictInput β) :
    (OdictInput.isMapping d = false → to_odict d = .error ()) ∧
    (∀ es, d = OdictInput.dict es → (∃ e ∈ es, e.1.isStr = false) →
      to_odict d = .error ()) := by
  constructor
  · intro h
    cases d with
    | odict es => simp [OdictInput.isMapping] at h
    | dict es => simp [OdictInput.isMapping] at h
    | notMapping t => rfl
  · rintro es rfl ⟨e, he, hns⟩
    have hall : es.all (fun e => e.1.isStr) = false := by
      cases hb : es.all (fun e => e.1.isStr) with
      | false => rfl
      | true =>
        rw [List.all_eq_true] at hb
        have hbe := hb e he
        rw [hns] at hbe
        exact absurd hbe (by simp)
    simp [to_odict, hall]

/-- Witness for the amended C5: a plain dict with a non-string key and a
non-mapping both raise the TypeError. -/
theorem to_odict_type_error_witness :
    to_odict (OdictInput.dict [(PyKey.other 0, (0 : Int))]) = .error () ∧
    to_odict (OdictInput.notMapping 0 : OdictInput Int) = .error () := by
  constructor
  · exact (to_odict_type_error Int (OdictInput.dict [(PyKey.other 0, 0)])).2
      [(PyKey.other 0, 0)] rfl ⟨(PyKey.other 0, 0), by simp, rfl⟩
  · exact (to_odict_type_error Int (OdictInput.notMapping 0)).1 rfl

/-- C6: an already insertion-ordered mapping is returned unchanged; a plain
string-keyed mapping yields exactly the same entries reordered so that,
when the keys are pairwise distinct, they appear in strictly increasing
lexicographic key order. -/
theorem to_odict_sorts_dict (β : Type) (es : List (PyKey × β)) :
    (to_odict (OdictInput.odict es) = .ok es) ∧
    ((∀ e ∈ es, e.1.isStr = true) →
      to_odict (OdictInput.dict es) = .ok (sorted_items es) ∧
      (sorted_items es).Perm es ∧
      ((es.map fun e => e.1.keyStr).Nodup →
        (sorted_items es).Pairwise fun a b => a.1.keyStr < b.1.keyStr)) := by
  refine ⟨rfl, ?_⟩
  intro hstr
  have hall : es.all (fun e => e.1.isStr) = true := List.all_eq_true.mpr hstr
  have hperm : (sorted_items es).Perm es := List.perm_insertionSort _ _
  refine ⟨by simp [to_odict, hall], hperm, ?_⟩
  intro hnd
  have hsorted : (sorted_items es).Pairwise entryLE :=
    List.sorted_insertionSort entryLE es
  have hnd2 : ((sorted_items es).map fun e => e.1.keyStr).Nodup :=
    ((hperm.map fun e => e.1.keyStr).nodup_iff).mpr hnd
  have hne : (sorted_items es).Pairwise fun a b => a.1.keyStr ≠ b.1.keyStr :=
    List.pairwise_map.mp hnd2
  exact (hsorted.and hne).imp fun h => lt_of_le_of_ne h.1 h.2

/-- Witness for C6: the unordered two-entry mapping with keys b and a comes
back sorted as a then b. -/
theorem to_odict_sorts_dict_witness :
    to_odict (OdictInput.dict [(PyKey.str "b", (2 : Int)), (PyKey.str "a", 1)])
      = .ok [(PyKey.str "a", 1), (PyKey.str "b", 2)] := by
  have h := (to_odict_sorts_dict Int
      [(PyKey.str "b", 2), (PyKey.str "a", 1)]).2 (by decide)
  rw [h.1]
  have hs : sorted_items [(PyKey.str "b", (2 : Int)), (PyKey.str "a", 1)]
      = [(PyKey.str "a", 1), (PyKey.str "b", 2)] := by
    simp [sorted_items, List.insertionSort, List.orderedInsert, entryLE, PyKey.keyStr]
    decide
  rw [hs]

/-- The conjunction over zipped lists holds exactly when it holds at every
common index. -/
theorem zip_all_iff_get {α β : Type} (f : α → β → Bool) (xs : List α) :
    ∀ ys : List β,
      ((xs.zip ys).all (fun p => f p.1 p.2) = true ↔
        ∀ (i : Nat) (h1 : i < xs.length) (h2 : i < ys.length),
          f (xs.get ⟨i, h1⟩) (ys.get ⟨i, h2⟩) = true) := by
  induction xs with
  | nil =>
    intro ys
    simp
  | cons x xs ih =>
    intro ys
    cases ys with
    | nil => simp
    | cons y ys =>
      rw [List.zip_cons_cons, List.all_cons, Bool.and_eq_true]
      constructor
      · rintro ⟨hxy, hrest⟩ i h1 h2
        cases i with
        | zero => exact hxy
        | succ n =>
          exact (ih ys).mp hrest n (Nat.lt_of_succ_lt_succ h1)
            (Nat.lt_of_succ_lt_succ h2)
      · intro h
        refine ⟨h 0 (Nat.succ_pos _) (Nat.succ_pos _), ?_⟩
        apply (ih ys).mpr
        intro i h1 h2
        exact h (i + 1) (Nat.succ_lt_succ h1) (Nat.succ_lt_succ h2)

/-- C7: same_shape holds exactly when the ranks agree (unknown rank only
matching unknown rank) and either both shapes have unknown dimension lists
or both are known with every corresponding dimension pair accepted by
same_dimension; and same_dimension holds exactly when both dimensions are
unknown or both are known and equal, never between known and unknown. -/
theorem same_shape_spec (x y : TensorShape) :
    (same_shape x y = true ↔
      (x.ndims = y.ndims ∧
        ((x.dims = none ∧ y.dims = none) ∨
          (∃ xd yd, x.dims = some xd ∧ y.dims = some yd ∧
            xd.length = yd.length ∧
            ∀ (i : Nat) (h1 : i < xd.length) (h2 : i < yd.length),
              same_dimension (xd.get ⟨i, h1⟩) (yd.get ⟨i, h2⟩) = true)))) ∧
    (∀ a b : Option Int, same_dimension a b = true ↔
      ((a = none ∧ b = none) ∨ ∃ v : Int, a = some v ∧ b = some v)) := by
  constructor
  · obtain ⟨xd⟩ := x
    obtain ⟨yd⟩ := y
    cases xd with
    | none =>
      cases yd with
      | none => simp [same_shape, TensorShape.ndims]
      | some ly => simp [same_shape, TensorShape.ndims]
    | some lx =>
      cases yd with
      | none => simp [same_shape, TensorShape.ndims]
      | some ly =>
        by_cases hlen : lx.length = ly.length
        · rw [same_shape]
          rw [if_neg (by simp [TensorShape.ndims, hlen])]
          simp only [TensorShape.ndims, Option.map_some', Option.some.injEq,
            Option.isNone_none, hlen]
          rw [zip_all_iff_get]
          constructor
          · intro h
            exact ⟨trivial, Or.inr ⟨lx, ly, rfl, rfl, hlen, h⟩⟩
          · rintro ⟨-, h | ⟨xd2, yd2, hx2, hy2, -, h⟩⟩
            · exact absurd h.1 (by simp)
            · subst hx2
              subst hy2
              exact h
        · rw [same_shape]
          rw [if_pos (by simp [TensorShape.ndims, hlen])]
          simp only [TensorShape.ndims, Option.map_some']
          constructor
          · intro h
            exact absurd h (by simp)
          · rintro ⟨hnd, -⟩
            rw [Option.some.injEq] at hnd
            exact absurd hnd hlen
  · intro a b
    cases a with
    | none =>
      cases b with
      | none => simp [same_dimension]
      | some v => simp [same_dimension]
    | some va =>
      cases b with
      | none => simp [same_dimension]
      | some vb =>
        simp only [same_dimension, beq_iff_eq, Option.some.injEq]
        constructor
        · intro h
          exact Or.inr ⟨va, rfl, h.symm⟩
        · rintro (⟨h, -⟩ | ⟨v, hva, hvb⟩)
          · exact absurd h (by simp)
          · rw [hva, hvb]

/-- Witness for C7: two equal known shapes with one unknown dimension each
compare equal, and two unknown dimensions compare equal. -/
theorem same_shape_spec_witness :
    same_shape ⟨some [some 2, none]⟩ ⟨some [some 2, none]⟩ = true ∧
    same_dimension none none = true := by
  constructor
  · apply (same_shape_spec ⟨some [some 2, none]⟩ ⟨some [some 2, none]⟩).1.mpr
    refine ⟨rfl, Or.inr ⟨[some 2, none], [some 2, none], rfl, rfl, rfl, ?_⟩⟩
    intro i h1 h2
    cases i with
    | zero => rfl
    | succ n =>
      cases n with
      | zero => rfl
      | succ m =>
        simp only [List.length_cons, List.length_nil] at h1
        omega
  · exact ((same_shape_spec ⟨some [some 2, none]⟩ ⟨some [some 2, none]⟩).2
      none none).mpr (Or.inl ⟨rfl, rfl⟩)

/-- C8: is_scalar raises the TypeError exactly on non-tensors; on a tensor
it returns the conjunction over the shape of the comparison of each
dimension with 1, which is true precisely when every dimension is the known
size 1; on a zero-rank tensor the conjunction is vacuously true. -/
theorem is_scalar_spec :
    (∀ n : Nat, is_scalar (TfValue.notTensor n) = .error ()) ∧
    (∀ t : TensorV,
      is_scalar (TfValue.tensor t)
          = .ok (t.get_shape.all fun dim => dim == some 1) ∧
      (is_scalar (TfValue.tensor t) = .ok true ↔
        ∀ dim ∈ t.get_shape, dim = some 1)) ∧
    (∀ t : TensorV, t.get_shape = [] → is_scalar (TfValue.tensor t) = .ok true) := by
  refine ⟨fun n => rfl, fun t => ⟨rfl, ?_⟩, fun t h => ?_⟩
  · rw [show is_scalar (TfValue.tensor t)
        = .ok (t.get_shape.all fun dim => dim == some 1) from rfl]
    rw [Except.ok.injEq]
    rw [List.all_eq_true]
    constructor
    · intro hall dim hd
      exact beq_iff_eq.mp (hall dim hd)
    · intro hall dim hd
      exact beq_iff_eq.mpr (hall dim hd)
  · rw [show is_scalar (TfValue.tensor t)
        = .ok (t.get_shape.all fun dim => dim == some 1) from rfl, h]
    rfl

/-- Witness for C8: the zero-rank tensor is a scalar and a non-tensor input
raises the TypeError. -/
theorem is_scalar_spec_witness :
    is_scalar (TfValue.tensor ⟨[]⟩) = .ok true ∧
    is_scalar (TfValue.notTensor 0) = .error () :=
  ⟨is_scalar_spec.2.2 ⟨[]⟩ rfl, is_scalar_spec.1 0⟩

/-- same_dimension does not depend on the order of its arguments. -/
theorem same_dimension_comm (a b : Option Int) :
    same_dimension a b = same_dimension b a := by
  cases a with
  | none =>
    cases b with
    | none => rfl
    | some vb => rfl
  | some va =>
    cases b with
    | none => rfl
    | some vb =>
      show (va == vb) = (vb == va)
      by_cases h : va = vb
      · rw [h]
      · rw [beq_eq_false_iff_ne.mpr h, beq_eq_false_iff_ne.mpr (Ne.symm h)]

/-- The pairwise same_dimension test over zipped lists is symmetric. -/
theorem zip_all_same_dimension_comm (xs : List (Option Int)) :
    ∀ ys : List (Option Int),
      ((xs.zip ys).all fun p => same_dimension p.1 p.2)
        = ((ys.zip xs).all fun p => same_dimension p.1 p.2) := by
  induction xs with
  | nil =>
    intro ys
    cases ys with
    | nil => rfl
    | cons y ys => rfl
  | cons x xs ih =>
    intro ys
    cases ys with
    | nil => rfl
    | cons y ys =>
      rw [List.zip_cons_cons, List.zip_cons_cons, List.all_cons, List.all_cons,
        ih ys, same_dimension_comm]

/-- C10: both same_shape and same_dimension are symmetric in their two
arguments. -/
theorem same_shape_symmetric :
    (∀ x y : TensorShape, same_shape x y = same_shape y x) ∧
    (∀ a b : Option Int, same_dimension a b = same_dimension b a) := by
  refine ⟨?_, same_dimension_comm⟩
  intro x y
  obtain ⟨xd⟩ := x
  obtain ⟨yd⟩ := y
  cases xd with
  | none =>
    cases yd with
    | none => rfl
    | some ly => simp [same_shape, TensorShape.ndims]
  | some lx =>
    cases yd with
    | none => simp [same_shape, TensorShape.ndims]
    | some ly =>
      by_cases hlen : lx.length = ly.length
      · rw [same_shape, same_shape]
        rw [if_neg (by simp [TensorShape.ndims, hlen])]
        rw [if_neg (by simp [TensorShape.ndims, hlen])]
        exact zip_all_same_dimension_comm lx ly
      · rw [same_shape, same_shape]
        rw [if_pos (by simp [TensorShape.ndims, hlen])]
        rw [if_pos (by simp [TensorShape.ndims]; exact fun hc => hlen hc.symm)]
